import Mathlib

/-!
Request metrics of the checkout service and the frontend.

A shallow embedding of `src/checkoutservice/metrics.go` (the gRPC unary interceptor) and of
`src/frontend/metrics.go` (the HTTP middleware and its `responseWriter` wrapper).

Conventions of the embedding.

* A metric vector is the list of its series, in order of creation.  `WithLabelValues(lvs...)`
  finds the series with these label values or creates it; a counter series holds the number of
  `Inc` calls, a histogram series holds the values passed to `Observe`, oldest first.
* Go's `error` is `Option GoError`, `nil` being `none`.
* A handler is code outside these two files.  It is given as a state transformer over an
  environment `ε` that stands for everything else in the process; handlers return normally.
* The path and the route template of a request are Go strings, bytes that need not be valid
  UTF-8.  In the frontend
  `WithLabelValues` panics on a label value that is not valid UTF-8, and the middleware ends in an
  `Outcome`: returned or panicked.  The method name the interceptor of the checkout service uses
  is a constant of the generated service description, hence text.
  `time.Now()` is a reading `now : ε → Int` of that environment, in nanoseconds.
* An HTTP handler talks to the `http.ResponseWriter` it receives through the two intercepted
  methods only; its body is a `http.Script`, a strategy that may choose every further call from the
  results of the earlier ones.  (`Header()` is promoted from the embedded field untouched.)
* `int` additions stay far below `2 ^ 63` (a response of that many bytes does not exist), so byte
  counts are integers without wrap-around; `float64(n)` is kept as the sample `Sample.float64 n`.
-/

/-- Go error values that reach the instrumentation: either an error that carries no gRPC status
(no `GRPCStatus` method), or one that carries the status `(code, msg)`; `codes.Code` is a `uint32`. -/
inductive GoError where
  | plain (msg : String)
  | grpcStatus (code : Nat) (msg : String)
deriving DecidableEq, Repr

namespace prometheus

/-- Label values of one series, in the order in which the vector declares its label names. -/
abbrev Labels := List String

/-- Values handed to `Observe`: `float64(n)` of an integer `n`, or `d.Seconds()` of a duration of
`nanos` nanoseconds. -/
inductive Sample where
  | float64 (n : Int)
  | seconds (nanos : Int)
deriving DecidableEq, Repr

/-- Looks up the first series with label values `lvs`. -/
def find {α : Type} : List (Labels × α) → Labels → Option α
  | [], _ => none
  | (k, v) :: rest, lvs => if k = lvs then some v else find rest lvs

/-- Applies `f` to the series with label values `lvs`, creating it from `init` when absent: what
`WithLabelValues(lvs...)` followed by one update of the returned metric does to a vector. -/
def upsert {α : Type} (f : α → α) (init : α) : List (Labels × α) → Labels → List (Labels × α)
  | [], lvs => [(lvs, f init)]
  | (k, v) :: rest, lvs => if k = lvs then (k, f v) :: rest else (k, v) :: upsert f init rest lvs

/-- Counter vector (`promauto.NewCounterVec`): its series with their current values. -/
structure CounterVec where
  series : List (Labels × Nat)
deriving DecidableEq, Repr

/-- Histogram vector (`promauto.NewHistogramVec`): its series with the observed values. -/
structure HistogramVec where
  series : List (Labels × List Sample)
deriving DecidableEq, Repr

/-- Models `v.WithLabelValues(lvs...).Inc()`. -/
def CounterVec.Inc (v : CounterVec) (lvs : Labels) : CounterVec :=
  ⟨upsert (fun n => n + 1) 0 v.series lvs⟩

/-- Current value of the series `lvs` of a counter vector (0 when it was never touched). -/
def CounterVec.value (v : CounterVec) (lvs : Labels) : Nat :=
  (find v.series lvs).getD 0

/-- Sum of a counter vector over all its series. -/
def CounterVec.total (v : CounterVec) : Nat :=
  (v.series.map Prod.snd).sum

/-- Models `v.WithLabelValues(lvs...).Observe(x)`. -/
def HistogramVec.Observe (v : HistogramVec) (lvs : Labels) (x : Sample) : HistogramVec :=
  ⟨upsert (fun xs => xs ++ [x]) [] v.series lvs⟩

/-- Values observed so far in the series `lvs` of a histogram vector. -/
def HistogramVec.observations (v : HistogramVec) (lvs : Labels) : List Sample :=
  (find v.series lvs).getD []

/-- Number of observations over all series of a histogram vector. -/
def HistogramVec.count (v : HistogramVec) : Nat :=
  (v.series.map (fun s => s.2.length)).sum

end prometheus

/-! ## google.golang.org/grpc: the two library calls the interceptor makes -/

namespace codes

/-- The status codes of `google.golang.org/grpc/codes` are a `uint32`. -/
abbrev Code := Nat

/-- Library function `codes.Code.String` of `google.golang.org/grpc/codes` (code_string.go): the
Go identifier of the seventeen canonical codes, and `Code(n)` for any other number. -/
def Code.String : Code → String
  | 0 => "OK"
  | 1 => "Canceled"
  | 2 => "Unknown"
  | 3 => "InvalidArgument"
  | 4 => "DeadlineExceeded"
  | 5 => "NotFound"
  | 6 => "AlreadyExists"
  | 7 => "PermissionDenied"
  | 8 => "ResourceExhausted"
  | 9 => "FailedPrecondition"
  | 10 => "Aborted"
  | 11 => "OutOfRange"
  | 12 => "Unimplemented"
  | 13 => "Internal"
  | 14 => "Unavailable"
  | 15 => "DataLoss"
  | 16 => "Unauthenticated"
  | n + 17 => "Code(" ++ toString (n + 17) ++ ")"

/-- The names `Code.String` gives the seventeen canonical codes, in the numbering of the codes. -/
def goNames : List String :=
  ["OK", "Canceled", "Unknown", "InvalidArgument", "DeadlineExceeded", "NotFound",
   "AlreadyExists", "PermissionDenied", "ResourceExhausted", "FailedPrecondition", "Aborted",
   "OutOfRange", "Unimplemented", "Internal", "Unavailable", "DataLoss", "Unauthenticated"]

/-- The enumeration as the specification spells it, in the numbering of the status codes. -/
def specNames : List String :=
  ["OK", "CANCELLED", "UNKNOWN", "INVALID_ARGUMENT", "DEADLINE_EXCEEDED", "NOT_FOUND",
   "ALREADY_EXISTS", "PERMISSION_DENIED", "RESOURCE_EXHAUSTED", "FAILED_PRECONDITION", "ABORTED",
   "OUT_OF_RANGE", "UNIMPLEMENTED", "INTERNAL", "UNAVAILABLE", "DATA_LOSS", "UNAUTHENTICATED"]

end codes

namespace status

/-- A gRPC status: code and message. -/
structure Status where
  Code : codes.Code
  Message : String
deriving DecidableEq, Repr

/-- Library function `status.FromError` of `google.golang.org/grpc/status` on a non-nil error:
the status the error carries, or a new status of code `Unknown` (2) with the error text. -/
def FromError : GoError → Status
  | .plain msg => ⟨2, msg⟩
  | .grpcStatus code msg => ⟨code, msg⟩

end status

namespace grpc

/-- Type `grpc.UnaryServerInfo`; the interceptor reads `FullMethod` only. -/
structure UnaryServerInfo where
  FullMethod : String
deriving DecidableEq, Repr

/-- Type `grpc.UnaryHandler`: from context and request to response and error, acting on the rest of
the process. -/
abbrev UnaryHandler (Ctx Req Resp ε : Type) := Ctx → Req → ε → (Resp × Option GoError) × ε

end grpc

/-! ## src/checkoutservice/metrics.go -/

namespace checkoutservice

open prometheus

/-- The three package-level metric vectors of the checkout service. -/
structure Metrics where
  grpcRequestsTotal : CounterVec
  grpcRequestDuration : HistogramVec
  grpcErrorsTotal : CounterVec
deriving DecidableEq, Repr

/-- Value of the local `statusCode` at line 82: `"OK"`, overwritten on an error by the name of the
code of `status.FromError(err)`. -/
def statusCode : Option GoError → String
  | none => "OK"
  | some err => codes.Code.String (status.FromError err).Code

/-- The function returned by `prometheusUnaryInterceptor()`, lines 60-86. -/
def prometheusUnaryInterceptor {Ctx Req Resp ε : Type} (now : ε → Int)
    (ctx : Ctx) (req : Req) (info : grpc.UnaryServerInfo)
    (handler : grpc.UnaryHandler Ctx Req Resp ε) (m : Metrics) (e : ε) :
    (Resp × Option GoError) × Metrics × ε :=
  let start := now e
  -- Call the handler
  let out := handler ctx req e
  let resp := out.1.1
  let err := out.1.2
  -- Record metrics
  let duration := Sample.seconds (now out.2 - start)
  let method := info.FullMethod
  let m1 : Metrics :=
    match err with
    | none => m
    | some _ =>
      { m with grpcErrorsTotal :=
          m.grpcErrorsTotal.Inc ["checkoutservice", method, statusCode err] }
  let m2 : Metrics :=
    { m1 with grpcRequestsTotal :=
        m1.grpcRequestsTotal.Inc ["checkoutservice", method, statusCode err] }
  let m3 : Metrics :=
    { m2 with grpcRequestDuration :=
        m2.grpcRequestDuration.Observe ["checkoutservice", method] duration }
  ((resp, err), m3, out.2)

/-- One inbound unary call as the gRPC server hands it to the interceptor. -/
structure Call (Ctx Req Resp ε : Type) where
  ctx : Ctx
  req : Req
  info : grpc.UnaryServerInfo
  handler : grpc.UnaryHandler Ctx Req Resp ε

/-- A sequence of calls handled one after the other; returns what each call returned. -/
def serve {Ctx Req Resp ε : Type} (now : ε → Int) :
    List (Call Ctx Req Resp ε) → Metrics → ε → List (Resp × Option GoError) × Metrics × ε
  | [], m, e => ([], m, e)
  | c :: cs, m, e =>
    let r := prometheusUnaryInterceptor now c.ctx c.req c.info c.handler m e
    let rest := serve now cs r.2.1 r.2.2
    (r.1 :: rest.1, rest.2)

/-- A handler instrumented to keep, next to its environment, the list of the (context, request)
pairs it was invoked with. -/
def logged {Ctx Req Resp ε : Type} (handler : grpc.UnaryHandler Ctx Req Resp ε) :
    grpc.UnaryHandler Ctx Req Resp (ε × List (Ctx × Req)) :=
  fun ctx req e => ((handler ctx req e.1).1, ((handler ctx req e.1).2, e.2 ++ [(ctx, req)]))

end checkoutservice

/-! ## Go strings, net/http and gorilla/mux: what the middleware uses of them -/

/-- A Go string is a sequence of bytes: either the UTF-8 encoding of a text, given by that text,
or a byte sequence that is not valid UTF-8, given by its bytes. -/
inductive GoString where
  | utf8 (text : String)
  | invalid (bytes : List UInt8)
deriving DecidableEq, Repr

/-- How a call ends: it returns, or it panics; in either case with the process state reached. -/
inductive Outcome (α : Type) where
  | returned (s : α)
  | panicked (s : α)

/-- The process state a call ends in. -/
def Outcome.state {α : Type} : Outcome α → α
  | .returned s => s
  | .panicked s => s

/-- Whether the call returned rather than panicked. -/
def Outcome.returns {α : Type} : Outcome α → Bool
  | .returned _ => true
  | .panicked _ => false

namespace prometheus

/-- Library function `validateLabelValues` of client_golang for as many values as the vector has
label names: the label values as text, or `none`, an error, when one of them is not valid UTF-8.
On that error `WithLabelValues` panics. -/
def validateLabelValues : List GoString → Option Labels
  | [] => some []
  | .utf8 text :: rest => (validateLabelValues rest).map (fun lvs => text :: lvs)
  | .invalid _ :: _ => none

end prometheus

namespace mux

/-- A matched route; `GetPathTemplate` holds the outcome `(pathTemplate, err)` of the method of
that name: the template, or the error of a route that has none. -/
structure Route where
  GetPathTemplate : Except String GoString

end mux

namespace http

/-- Type `url.URL`; the middleware reads `Path` only, the decoded path the client sent. -/
structure URL where
  Path : GoString
deriving DecidableEq, Repr

/-- Type `http.Request`, with the fields the middleware reads.  `Method` is text: the server
accepts a request line only when its method is a token.  `ContentLength` is an `int64`, -1 when
the length is unknown; `route` is the route the router stored in the request context. -/
structure Request where
  Method : String
  URL : URL
  ContentLength : Int
  route : Option mux.Route

/-- Interface `http.ResponseWriter` as far as the wrapper intercepts it: an implementation over
states `σ` of `WriteHeader(statusCode int)` and `Write([]byte) (int, error)`. -/
structure ResponseWriter (σ : Type) where
  WriteHeader : Int → σ → σ
  Write : List UInt8 → σ → (Int × Option GoError) × σ

/-- Body of a handler as seen from the `ResponseWriter` it is given: it returns, leaving the
environment `env`, or makes one more call and goes on, after a `Write` according to the byte count
and the error that came back. -/
inductive Script (ε : Type) where
  | ret (env : ε)
  | WriteHeader (statusCode : Int) (next : Script ε)
  | Write (b : List UInt8) (next : Int → Option GoError → Script ε)

/-- One call made on a `ResponseWriter`, with what it returned. -/
inductive Interaction where
  | WriteHeader (statusCode : Int)
  | Write (b : List UInt8) (n : Int) (err : Option GoError)
deriving DecidableEq, Repr

/-- Runs a handler body against the implementation `W` in state `t`: the calls made with their
results, in order, the environment the handler leaves, and the final state of the writer. -/
def Script.run {ε τ : Type} (W : ResponseWriter τ) : Script ε → τ → List Interaction × ε × τ
  | .ret env, t => ([], env, t)
  | .WriteHeader statusCode next, t =>
    let r := Script.run W next (W.WriteHeader statusCode t)
    (Interaction.WriteHeader statusCode :: r.1, r.2)
  | .Write b next, t =>
    let out := W.Write b t
    let r := Script.run W (next out.1.1 out.1.2) out.2
    (Interaction.Write b out.1.1 out.1.2 :: r.1, r.2)

/-- The same handler body with the environment it leaves passed through `f`. -/
def Script.mapEnv {ε δ : Type} (f : ε → δ) : Script ε → Script δ
  | .ret env => .ret (f env)
  | .WriteHeader statusCode next => .WriteHeader statusCode (Script.mapEnv f next)
  | .Write b next => .Write b (fun n err => Script.mapEnv f (next n err))

/-- Status codes of the `WriteHeader` calls of a run, in order. -/
def statusCodes : List Interaction → List Int
  | [] => []
  | .WriteHeader statusCode :: rest => statusCode :: statusCodes rest
  | .Write _ _ _ :: rest => statusCodes rest

/-- Sum, starting from 0, of the byte counts the `Write` calls of a run returned. -/
def bytesWritten : List Interaction → Int
  | [] => 0
  | .WriteHeader _ :: rest => bytesWritten rest
  | .Write _ n _ :: rest => n + bytesWritten rest

/-- A writer that forwards to `W` and keeps the list of the calls that reached it, with what it
answered. -/
def recording {σ : Type} (W : ResponseWriter σ) : ResponseWriter (σ × List Interaction) where
  WriteHeader := fun statusCode s =>
    (W.WriteHeader statusCode s.1, s.2 ++ [Interaction.WriteHeader statusCode])
  Write := fun b s =>
    ((W.Write b s.1).1, ((W.Write b s.1).2, s.2 ++ [Interaction.Write b (W.Write b s.1).1.1 (W.Write b s.1).1.2]))

/-- State of the server-side response of net/http, as the documentation of `http.ResponseWriter`
describes it: whether the header went out, with which status, and the body sent. -/
structure response where
  wroteHeader : Bool
  status : Int
  written : List UInt8
deriving DecidableEq, Repr

/-- Method `WriteHeader` of the server response: the first call sends the header, a later call is
superfluous and changes nothing. -/
def response.WriteHeader (statusCode : Int) (w : response) : response :=
  if w.wroteHeader then w else { w with wroteHeader := true, status := statusCode }

/-- Method `Write` of the server response: a first write without header sends status 200 first. -/
def response.Write (b : List UInt8) (w : response) : (Int × Option GoError) × response :=
  let w1 := if w.wroteHeader then w else response.WriteHeader 200 w
  (((b.length : Int), none), { w1 with written := w1.written ++ b })

/-- The server response before the handler runs: nothing sent yet. -/
def response.fresh : response := ⟨false, 0, []⟩

/-- The server response as a `ResponseWriter`. -/
def serverResponse : ResponseWriter response where
  WriteHeader := response.WriteHeader
  Write := response.Write

/-- Status the client receives once the handler has returned: the one of the header sent, 200
when the handler sent none. -/
def response.emitted (w : response) : Int :=
  if w.wroteHeader then w.status else 200

end http

namespace mux

/-- Library function `mux.CurrentRoute`: the matched route of the request, `none` for Go's nil. -/
def CurrentRoute (r : http.Request) : Option Route := r.route

end mux

namespace strconv

/-- Library function `strconv.Itoa`: the decimal string of an integer. -/
def Itoa (n : Int) : String := toString n

end strconv

/-! ## src/frontend/metrics.go -/

namespace frontend

open prometheus

/-- The four package-level metric vectors of the frontend. -/
structure Metrics where
  httpRequestsTotal : CounterVec
  httpRequestDuration : HistogramVec
  httpRequestSize : HistogramVec
  httpResponseSize : HistogramVec
deriving DecidableEq, Repr

/-- Type `responseWriter`, lines 102-106: the embedded writer with the captured status code and
response size. -/
structure responseWriter (σ : Type) where
  ResponseWriter : σ
  statusCode : Int
  size : Int

/-- Method `responseWriter.WriteHeader`, lines 108-111. -/
def responseWriter.WriteHeader {σ : Type} (W : http.ResponseWriter σ) (code : Int)
    (rw : responseWriter σ) : responseWriter σ :=
  { rw with statusCode := code, ResponseWriter := W.WriteHeader code rw.ResponseWriter }

/-- Method `responseWriter.Write`, lines 113-117. -/
def responseWriter.Write {σ : Type} (W : http.ResponseWriter σ) (b : List UInt8)
    (rw : responseWriter σ) : (Int × Option GoError) × responseWriter σ :=
  let out := W.Write b rw.ResponseWriter
  let size := out.1.1
  let err := out.1.2
  ((size, err), { rw with ResponseWriter := out.2, size := rw.size + size })

/-- The wrapper as an implementation of `http.ResponseWriter`: this is what the next handler is
given as its writer. -/
def wrapper {σ : Type} (W : http.ResponseWriter σ) : http.ResponseWriter (responseWriter σ) where
  WriteHeader := responseWriter.WriteHeader W
  Write := responseWriter.Write W

/-- Lines 75-81: the value of the local `handler`, the label of the route. -/
def handlerLabel (r : http.Request) : GoString :=
  match mux.CurrentRoute r with
  | none => r.URL.Path
  | some route =>
    match route.GetPathTemplate with
    | .ok pathTemplate => pathTemplate
    | .error _ => r.URL.Path

/-- Lines 83-86: record the request size; `none` when `WithLabelValues` panics. -/
def recordRequestSize (r : http.Request) (m : Metrics) : Option Metrics :=
  if r.ContentLength > 0 then
    match validateLabelValues [.utf8 "frontend", .utf8 r.Method, handlerLabel r] with
    | none => none
    | some lvs =>
      let requestSize := Sample.float64 r.ContentLength
      some { m with httpRequestSize := m.httpRequestSize.Observe lvs requestSize }
  else some m

/-- Type `http.Handler` of the next handler: from the request to the body it runs against its
writer; the body may depend on the metric registry and the environment it finds when invoked. -/
abbrev Handler (ε : Type) := http.Request → Metrics → ε → http.Script ε

/-- Process state around one request: the metric vectors, the underlying writer `w`, the rest. -/
structure State (σ ε : Type) where
  metrics : Metrics
  w : σ
  env : ε

/-- The handler returned by `prometheusMiddleware(next)`, lines 68-98, serving the request `r` on
the writer `W`.  Each of the four `WithLabelValues` calls panics on label values that are not
valid UTF-8, and a panic ends the function with nothing further done. -/
def prometheusMiddleware {σ ε : Type} (now : ε → Int) (W : http.ResponseWriter σ)
    (next : Handler ε) (r : http.Request) (st : State σ ε) : Outcome (State σ ε) :=
  let start := now st.env
  -- Get route pattern from mux
  let handler := handlerLabel r
  -- Record request size
  match recordRequestSize r st.metrics with
  | none => .panicked st
  | some m0 =>
    -- Call the next handler
    let served := (next r m0 st.env).run (wrapper W)
      { ResponseWriter := st.w, statusCode := 200, size := 0 }
    let wrapped := served.2.2
    -- Record metrics
    let duration := Sample.seconds (now served.2.1 - start)
    let statusCode := strconv.Itoa wrapped.statusCode
    match validateLabelValues [.utf8 "frontend", .utf8 r.Method, handler, .utf8 statusCode] with
    | none => .panicked { metrics := m0, w := wrapped.ResponseWriter, env := served.2.1 }
    | some lvs4 =>
      let m1 : Metrics := { m0 with httpRequestsTotal := m0.httpRequestsTotal.Inc lvs4 }
      match validateLabelValues [.utf8 "frontend", .utf8 r.Method, handler] with
      | none => .panicked { metrics := m1, w := wrapped.ResponseWriter, env := served.2.1 }
      | some lvs3 =>
        let m2 : Metrics :=
          { m1 with httpRequestDuration := m1.httpRequestDuration.Observe lvs3 duration }
        match validateLabelValues [.utf8 "frontend", .utf8 r.Method, handler] with
        | none => .panicked { metrics := m2, w := wrapped.ResponseWriter, env := served.2.1 }
        | some lvs =>
          let responseSize := Sample.float64 wrapped.size
          let m3 : Metrics :=
            { m2 with httpResponseSize := m2.httpResponseSize.Observe lvs responseSize }
          .returned { metrics := m3, w := wrapped.ResponseWriter, env := served.2.1 }

/-- The registry the next handler finds when it is invoked: the one left by lines 83-86. -/
def invokedOn (r : http.Request) (m : Metrics) : Metrics :=
  (recordRequestSize r m).getD m

/-- Line 89, the call `next.ServeHTTP(wrapped, r)`: the next handler run against the wrapper. -/
def serveWrapped {σ ε : Type} (W : http.ResponseWriter σ) (next : Handler ε) (r : http.Request)
    (st : State σ ε) : List http.Interaction × ε × responseWriter σ :=
  (next r (invokedOn r st.metrics) st.env).run (wrapper W)
    { ResponseWriter := st.w, statusCode := 200, size := 0 }

/-- The same invocation of the next handler run against the underlying writer itself. -/
def serveDirect {σ ε : Type} (W : http.ResponseWriter σ) (next : Handler ε) (r : http.Request)
    (st : State σ ε) : List http.Interaction × ε × σ :=
  (next r (invokedOn r st.metrics) st.env).run W st.w

/-- An empty registry: no series in any of the four vectors. -/
def noMetrics : Metrics := ⟨⟨[]⟩, ⟨[]⟩, ⟨[]⟩, ⟨[]⟩⟩

/-- A request for a product page, matched by the route of template `/product/\x7bid\x7d`, of a
`ContentLength` to choose. -/
def productRequest (method : String) (contentLength : Int) : http.Request :=
  ⟨method, ⟨.utf8 "/product/0PUK6V6EV0"⟩, contentLength,
    some ⟨.ok (.utf8 "/product/\x7bid\x7d")⟩⟩

/-- A handler that sets the status twice: 404, then 500. -/
def setsStatusTwice : Handler Unit :=
  fun _ _ env => .WriteHeader 404 (.WriteHeader 500 (.ret env))

/-- A handler that writes two bytes and sets the status 500 afterwards. -/
def writesThenSetsStatus : Handler Unit :=
  fun _ _ env => .Write [111, 107] (fun _ _ => .WriteHeader 500 (.ret env))

/-- A handler that makes no call on its writer. -/
def silent : Handler Unit :=
  fun _ _ env => .ret env

/-- A next handler instrumented to keep, next to its environment, the list of the requests it was
invoked with. -/
def logged {ε : Type} (next : Handler ε) : Handler (ε × List http.Request) :=
  fun r m e => (next r m e.1).mapEnv (fun env => (env, e.2 ++ [r]))

end frontend

/-! ## Metric vectors: what one update does -/

namespace prometheus

theorem find_upsert {α : Type} (f : α → α) (init : α) (l : List (Labels × α)) (lvs k : Labels) :
    find (upsert f init l lvs) k =
      if k = lvs then some (f ((find l lvs).getD init)) else find l k := by
  induction l with
  | nil =>
    by_cases h : k = lvs
    · subst h; simp [upsert, find]
    · have h2 : ¬ lvs = k := fun e => h e.symm
      simp [upsert, find, h, h2]
  | cons hd tl ih =>
    obtain ⟨a, v⟩ := hd
    by_cases ha : a = lvs
    · subst ha
      by_cases h : k = a
      · subst h; simp [upsert, find]
      · have h2 : ¬ a = k := fun e => h e.symm
        simp [upsert, find, h, h2]
    · by_cases h : k = lvs
      · subst h; simp [upsert, find, ha, ih]
      · by_cases hk : a = k
        · simp [upsert, find, ha, h, hk]
        · simp [upsert, find, ha, h, hk, ih]

theorem sum_upsert (l : List (Labels × Nat)) (lvs : Labels) :
    ((upsert (fun n => n + 1) 0 l lvs).map Prod.snd).sum = (l.map Prod.snd).sum + 1 := by
  induction l with
  | nil => simp [upsert]
  | cons hd tl ih =>
    obtain ⟨a, v⟩ := hd
    by_cases ha : a = lvs
    · simp [upsert, ha]; omega
    · simp [upsert, ha, ih]; omega

theorem count_upsert (x : Sample) (l : List (Labels × List Sample)) (lvs : Labels) :
    ((upsert (fun xs => xs ++ [x]) [] l lvs).map (fun s => s.2.length)).sum =
      (l.map (fun s => s.2.length)).sum + 1 := by
  induction l with
  | nil => simp [upsert]
  | cons hd tl ih =>
    obtain ⟨a, v⟩ := hd
    by_cases ha : a = lvs
    · simp [upsert, ha]; omega
    · simp [upsert, ha, ih]; omega

theorem CounterVec.total_Inc (v : CounterVec) (lvs : Labels) :
    (v.Inc lvs).total = v.total + 1 :=
  sum_upsert v.series lvs

theorem CounterVec.value_Inc (v : CounterVec) (lvs k : Labels) :
    (v.Inc lvs).value k = if k = lvs then v.value k + 1 else v.value k := by
  unfold CounterVec.value CounterVec.Inc
  rw [find_upsert]
  by_cases h : k = lvs
  · subst h; simp
  · simp [h]

theorem HistogramVec.observations_Observe (v : HistogramVec) (lvs k : Labels) (x : Sample) :
    (v.Observe lvs x).observations k =
      if k = lvs then v.observations k ++ [x] else v.observations k := by
  unfold HistogramVec.observations HistogramVec.Observe
  rw [find_upsert]
  by_cases h : k = lvs
  · subst h; simp
  · simp [h]

theorem HistogramVec.count_Observe (v : HistogramVec) (lvs : Labels) (x : Sample) :
    (v.Observe lvs x).count = v.count + 1 :=
  count_upsert x v.series lvs

end prometheus

/-! ## The unary interceptor of the checkout service -/

namespace checkoutservice

open prometheus

theorem interceptor_requests {Ctx Req Resp ε : Type} (now : ε → Int) (ctx : Ctx) (req : Req)
    (info : grpc.UnaryServerInfo) (handler : grpc.UnaryHandler Ctx Req Resp ε) (m : Metrics)
    (e : ε) :
    (prometheusUnaryInterceptor now ctx req info handler m e).2.1.grpcRequestsTotal =
      m.grpcRequestsTotal.Inc
        ["checkoutservice", info.FullMethod, statusCode (handler ctx req e).1.2] := by
  unfold prometheusUnaryInterceptor
  cases h : (handler ctx req e).1.2 <;> simp [h]

theorem interceptor_errors {Ctx Req Resp ε : Type} (now : ε → Int) (ctx : Ctx) (req : Req)
    (info : grpc.UnaryServerInfo) (handler : grpc.UnaryHandler Ctx Req Resp ε) (m : Metrics)
    (e : ε) :
    (prometheusUnaryInterceptor now ctx req info handler m e).2.1.grpcErrorsTotal =
      match (handler ctx req e).1.2 with
      | none => m.grpcErrorsTotal
      | some err =>
        m.grpcErrorsTotal.Inc
          ["checkoutservice", info.FullMethod, codes.Code.String (status.FromError err).Code] := by
  unfold prometheusUnaryInterceptor
  cases h : (handler ctx req e).1.2 <;> simp [h, statusCode]

theorem code_string_names (c : codes.Code) :
    codes.Code.String c = (codes.goNames.get? c).getD ("Code(" ++ toString c ++ ")") := by
  rcases c with _ | _ | _ | _ | _ | _ | _ | _ | _ | _ | _ | _ | _ | _ | _ | _ | _ | n
  all_goals rfl

/-- C1: for every context, request, method info and next handler, the interceptor hands the
handler the context and request it was given, runs it exactly once (the environment ends as one
run of the handler leaves it, and a handler that logs its invocations logs exactly this one), and
returns exactly the response and error of the handler, nil or not, whatever the metrics state. -/
theorem interceptor_is_pass_through {Ctx Req Resp ε : Type} (now : ε → Int) (ctx : Ctx)
    (req : Req) (info : grpc.UnaryServerInfo) (handler : grpc.UnaryHandler Ctx Req Resp ε)
    (m m' : Metrics) (e : ε) (log : List (Ctx × Req)) :
    (prometheusUnaryInterceptor now ctx req info handler m e).1 = (handler ctx req e).1 ∧
    (prometheusUnaryInterceptor now ctx req info handler m e).2.2 = (handler ctx req e).2 ∧
    (prometheusUnaryInterceptor (fun x => now x.1) ctx req info (logged handler) m (e, log)).2.2
      = ((handler ctx req e).2, log ++ [(ctx, req)]) ∧
    (prometheusUnaryInterceptor now ctx req info handler m' e).1 =
      (prometheusUnaryInterceptor now ctx req info handler m e).1 :=
  ⟨rfl, rfl, rfl, rfl⟩

/-- C2: when the handler returns an error, grpc_errors_total is incremented once, under
(checkoutservice, full method, code) with code the name of the status code of the error: the
total over all series grows by 1, this series by 1, no other series changes, and
grpc_requests_total is incremented under the same three label values; when the handler returns
no error, grpc_errors_total is left as it was. -/
theorem errors_counted_once {Ctx Req Resp ε : Type} (now : ε → Int) (ctx : Ctx) (req : Req)
    (info : grpc.UnaryServerInfo) (handler : grpc.UnaryHandler Ctx Req Resp ε) (m : Metrics)
    (e : ε) :
    match (handler ctx req e).1.2 with
    | none =>
      (prometheusUnaryInterceptor now ctx req info handler m e).2.1.grpcErrorsTotal
        = m.grpcErrorsTotal
    | some err =>
      (prometheusUnaryInterceptor now ctx req info handler m e).2.1.grpcErrorsTotal
        = m.grpcErrorsTotal.Inc
            ["checkoutservice", info.FullMethod, codes.Code.String (status.FromError err).Code] ∧
      (prometheusUnaryInterceptor now ctx req info handler m e).2.1.grpcErrorsTotal.total
        = m.grpcErrorsTotal.total + 1 ∧
      (∀ lvs : Labels,
        (prometheusUnaryInterceptor now ctx req info handler m e).2.1.grpcErrorsTotal.value lvs
          = if lvs = ["checkoutservice", info.FullMethod,
                codes.Code.String (status.FromError err).Code]
            then m.grpcErrorsTotal.value lvs + 1 else m.grpcErrorsTotal.value lvs) ∧
      (prometheusUnaryInterceptor now ctx req info handler m e).2.1.grpcRequestsTotal
        = m.grpcRequestsTotal.Inc
            ["checkoutservice", info.FullMethod, codes.Code.String (status.FromError err).Code] := by
  have herr := interceptor_errors now ctx req info handler m e
  have hreq := interceptor_requests now ctx req info handler m e
  cases h : (handler ctx req e).1.2 with
  | none => simpa [h] using herr
  | some err =>
    rw [h] at herr hreq
    simp only at herr
    refine ⟨herr, ?_, ?_, ?_⟩
    · rw [herr, CounterVec.total_Inc]
    · intro lvs
      rw [herr, CounterVec.value_Inc]
    · rw [hreq]; rfl

/-- C3: for every initial metrics state and every sequence of calls handled by the interceptor,
whatever their methods and outcomes, the sum of grpc_requests_total over all its series after the
sequence is the sum before plus the number of calls. -/
theorem requests_total_counts_calls {Ctx Req Resp ε : Type} (now : ε → Int)
    (calls : List (Call Ctx Req Resp ε)) (m : Metrics) (e : ε) :
    (serve now calls m e).2.1.grpcRequestsTotal.total
      = m.grpcRequestsTotal.total + calls.length := by
  induction calls generalizing m e with
  | nil => simp [serve]
  | cons c cs ih =>
    simp only [serve, List.length_cons]
    rw [ih, interceptor_requests, CounterVec.total_Inc]
    omega

/-- C4, as the claim states it, fails: an error that carries no gRPC status is counted under the
code label Unknown, which is neither UNKNOWN nor any other name of the enumeration as the
specification spells it. -/
theorem code_label_is_not_upper_case :
    (prometheusUnaryInterceptor (fun _ : Unit => 0) () ()
        ⟨"/hipstershop.CheckoutService/PlaceOrder"⟩
        (fun _ _ e => (((), some (GoError.plain "card declined")), e))
        ⟨⟨[]⟩, ⟨[]⟩, ⟨[]⟩⟩ ()).2.1.grpcErrorsTotal.series
      = [(["checkoutservice", "/hipstershop.CheckoutService/PlaceOrder", "Unknown"], 1)] ∧
    (prometheusUnaryInterceptor (fun _ : Unit => 0) () ()
        ⟨"/hipstershop.CheckoutService/PlaceOrder"⟩
        (fun _ _ e => (((), some (GoError.plain "card declined")), e))
        ⟨⟨[]⟩, ⟨[]⟩, ⟨[]⟩⟩ ()).2.1.grpcRequestsTotal.series
      = [(["checkoutservice", "/hipstershop.CheckoutService/PlaceOrder", "Unknown"], 1)] ∧
    "Unknown" ≠ "UNKNOWN" ∧ "Unknown" ∉ codes.specNames := by
  decide

/-- C4, amended: for every error the handler returns, the code label of both counters is the
string `Code.String` gives the status code of the error, which is the name at the position of the
code in OK, Canceled, Unknown, InvalidArgument, DeadlineExceeded, NotFound, AlreadyExists,
PermissionDenied, ResourceExhausted, FailedPrecondition, Aborted, OutOfRange, Unimplemented,
Internal, Unavailable, DataLoss, Unauthenticated and Code(n) for a code n beyond them; an error
that carries no gRPC status is labelled Unknown; and the call returns the response and error of
the handler. -/
theorem code_label_is_go_name {Ctx Req Resp ε : Type} (now : ε → Int) (ctx : Ctx) (req : Req)
    (info : grpc.UnaryServerInfo) (handler : grpc.UnaryHandler Ctx Req Resp ε) (m : Metrics)
    (e : ε) (err : GoError) (h : (handler ctx req e).1.2 = some err) :
    (prometheusUnaryInterceptor now ctx req info handler m e).2.1.grpcErrorsTotal
      = m.grpcErrorsTotal.Inc ["checkoutservice", info.FullMethod, statusCode (some err)] ∧
    (prometheusUnaryInterceptor now ctx req info handler m e).2.1.grpcRequestsTotal
      = m.grpcRequestsTotal.Inc ["checkoutservice", info.FullMethod, statusCode (some err)] ∧
    statusCode (some err)
      = (codes.goNames.get? (status.FromError err).Code).getD
          ("Code(" ++ toString (status.FromError err).Code ++ ")") ∧
    (∀ msg : String, err = GoError.plain msg → statusCode (some err) = "Unknown") ∧
    (prometheusUnaryInterceptor now ctx req info handler m e).1 = (handler ctx req e).1 := by
  have herr := interceptor_errors now ctx req info handler m e
  have hreq := interceptor_requests now ctx req info handler m e
  rw [h] at herr hreq
  refine ⟨herr, hreq, code_string_names _, ?_, rfl⟩
  intro msg hm
  subst hm
  rfl

/-- C4, amended, at a concrete call: a handler failing with the status NotFound (code 5). -/
theorem code_label_is_go_name_witness :
    ((fun (_ : Unit) (_ : Unit) (e : Unit) =>
        (((), some (GoError.grpcStatus 5 "no such cart")), e)) () () ()).1.2
      = some (GoError.grpcStatus 5 "no such cart") ∧
    (prometheusUnaryInterceptor (fun _ : Unit => 0) () ()
        ⟨"/hipstershop.CheckoutService/PlaceOrder"⟩
        (fun _ _ e => (((), some (GoError.grpcStatus 5 "no such cart")), e))
        ⟨⟨[]⟩, ⟨[]⟩, ⟨[]⟩⟩ ()).2.1.grpcErrorsTotal
      = (CounterVec.mk []).Inc
          ["checkoutservice", "/hipstershop.CheckoutService/PlaceOrder", "NotFound"] :=
  ⟨rfl,
   (code_label_is_go_name (fun _ : Unit => 0) () () ⟨"/hipstershop.CheckoutService/PlaceOrder"⟩
      (fun _ _ e => (((), some (GoError.grpcStatus 5 "no such cart")), e))
      ⟨⟨[]⟩, ⟨[]⟩, ⟨[]⟩⟩ () (GoError.grpcStatus 5 "no such cart") rfl).1⟩

end checkoutservice

/-! ## The response writer wrapper and the middleware of the frontend -/

namespace frontend

open prometheus

theorem getLast_cons_getD (c d : Int) (l : List Int) :
    ((c :: l).getLast?).getD d = (l.getLast?).getD c := by
  cases l with
  | nil => rfl
  | cons a t =>
    rw [List.getLast?_cons_cons]
    cases h : (a :: t).getLast? with
    | none => simp at h
    | some x => rfl

theorem run_wrapper {σ ε : Type} (W : http.ResponseWriter σ) (p : http.Script ε)
    (rw : responseWriter σ) :
    p.run (wrapper W) rw =
      ((p.run W rw.ResponseWriter).1, (p.run W rw.ResponseWriter).2.1,
        { ResponseWriter := (p.run W rw.ResponseWriter).2.2,
          statusCode :=
            ((http.statusCodes (p.run W rw.ResponseWriter).1).getLast?).getD rw.statusCode,
          size := rw.size + http.bytesWritten (p.run W rw.ResponseWriter).1 }) := by
  induction p generalizing rw with
  | ret env => simp [http.Script.run, http.statusCodes, http.bytesWritten]
  | WriteHeader c k ih =>
    simp only [http.Script.run, http.statusCodes, http.bytesWritten]
    rw [show (wrapper W).WriteHeader c rw = responseWriter.WriteHeader W c rw from rfl, ih]
    simp [responseWriter.WriteHeader, getLast_cons_getD]
  | Write b k ih =>
    simp only [http.Script.run, http.statusCodes, http.bytesWritten]
    rw [show (wrapper W).Write b rw = responseWriter.Write W b rw from rfl]
    simp only [responseWriter.Write]
    rw [ih]
    simp [add_assoc]

theorem run_recording {σ ε : Type} (W : http.ResponseWriter σ) (p : http.Script ε) (s : σ)
    (log : List http.Interaction) :
    p.run (http.recording W) (s, log) =
      ((p.run W s).1, (p.run W s).2.1, ((p.run W s).2.2, log ++ (p.run W s).1)) := by
  induction p generalizing s log with
  | ret env => simp [http.Script.run]
  | WriteHeader c k ih =>
    have h : (http.recording W).WriteHeader c (s, log)
        = (W.WriteHeader c s, log ++ [http.Interaction.WriteHeader c]) := rfl
    simp only [http.Script.run, h, ih]
    simp
  | Write b k ih =>
    have h : (http.recording W).Write b (s, log)
        = ((W.Write b s).1, ((W.Write b s).2,
            log ++ [http.Interaction.Write b (W.Write b s).1.1 (W.Write b s).1.2])) := rfl
    simp only [http.Script.run, h, ih]
    simp

theorem serveWrapped_eq {σ ε : Type} (W : http.ResponseWriter σ) (next : Handler ε)
    (r : http.Request) (st : State σ ε) :
    serveWrapped W next r st =
      ((serveDirect W next r st).1, (serveDirect W next r st).2.1,
        { ResponseWriter := (serveDirect W next r st).2.2,
          statusCode := ((http.statusCodes (serveDirect W next r st).1).getLast?).getD 200,
          size := http.bytesWritten (serveDirect W next r st).1 }) := by
  unfold serveWrapped serveDirect
  rw [run_wrapper]
  simp

theorem recordRequestSize_valid (r : http.Request) (mt : Metrics) (h : String)
    (hh : handlerLabel r = GoString.utf8 h) :
    recordRequestSize r mt
      = some { mt with httpRequestSize :=
          if r.ContentLength > 0 then
            (mt.httpRequestSize.Observe ["frontend", r.Method, h] (Sample.float64 r.ContentLength))
          else mt.httpRequestSize } := by
  unfold recordRequestSize
  split <;> simp [hh, validateLabelValues]

theorem middleware_valid {σ ε : Type} (now : ε → Int) (W : http.ResponseWriter σ)
    (next : Handler ε) (r : http.Request) (st : State σ ε) (h : String)
    (hh : handlerLabel r = GoString.utf8 h) :
    prometheusMiddleware now W next r st = Outcome.returned
      { metrics :=
          { httpRequestsTotal :=
              st.metrics.httpRequestsTotal.Inc
                ["frontend", r.Method, h, strconv.Itoa (serveWrapped W next r st).2.2.statusCode],
            httpRequestDuration :=
              st.metrics.httpRequestDuration.Observe ["frontend", r.Method, h]
                (Sample.seconds (now (serveWrapped W next r st).2.1 - now st.env)),
            httpRequestSize :=
              if r.ContentLength > 0 then
                (st.metrics.httpRequestSize.Observe ["frontend", r.Method, h]
                  (Sample.float64 r.ContentLength))
              else st.metrics.httpRequestSize,
            httpResponseSize :=
              st.metrics.httpResponseSize.Observe ["frontend", r.Method, h]
                (Sample.float64 (serveWrapped W next r st).2.2.size) },
        w := (serveWrapped W next r st).2.2.ResponseWriter,
        env := (serveWrapped W next r st).2.1 } := by
  have hrec := recordRequestSize_valid r st.metrics h hh
  simp only [prometheusMiddleware, serveWrapped, invokedOn, hrec, hh, validateLabelValues,
    Option.map_some', Option.getD_some]

theorem middleware_valid_state {σ ε : Type} (now : ε → Int) (W : http.ResponseWriter σ)
    (next : Handler ε) (r : http.Request) (st : State σ ε) (h : String)
    (hh : handlerLabel r = GoString.utf8 h) :
    (prometheusMiddleware now W next r st).state.metrics =
      { httpRequestsTotal :=
          st.metrics.httpRequestsTotal.Inc
            ["frontend", r.Method, h, strconv.Itoa (serveWrapped W next r st).2.2.statusCode],
        httpRequestDuration :=
          st.metrics.httpRequestDuration.Observe ["frontend", r.Method, h]
            (Sample.seconds (now (serveWrapped W next r st).2.1 - now st.env)),
        httpRequestSize :=
          if r.ContentLength > 0 then
            (st.metrics.httpRequestSize.Observe ["frontend", r.Method, h]
              (Sample.float64 r.ContentLength))
          else st.metrics.httpRequestSize,
        httpResponseSize :=
          st.metrics.httpResponseSize.Observe ["frontend", r.Method, h]
            (Sample.float64 (serveWrapped W next r st).2.2.size) } ∧
    (prometheusMiddleware now W next r st).state.w = (serveDirect W next r st).2.2 ∧
    (prometheusMiddleware now W next r st).state.env = (serveDirect W next r st).2.1 ∧
    (prometheusMiddleware now W next r st).returns = true := by
  rw [middleware_valid now W next r st h hh]
  refine ⟨rfl, ?_, ?_, rfl⟩
  · simp [Outcome.state, serveWrapped_eq]
  · simp [Outcome.state, serveWrapped_eq]

/-- C7 fails on the code: on the server response of net/http a handler that sets 404 and then 500
has its client receive 404 while the request is counted under status_code 500, and a handler that
writes first (status 200 goes out) and sets 500 afterwards is counted under 500 as well. -/
theorem status_label_is_not_emitted_status :
    (prometheusMiddleware (fun _ => 0) http.serverResponse setsStatusTwice
      (productRequest "GET" (-1)) ⟨noMetrics, http.response.fresh, ()⟩).returns = true ∧
    (prometheusMiddleware (fun _ => 0) http.serverResponse setsStatusTwice
      (productRequest "GET" (-1)) ⟨noMetrics, http.response.fresh, ()⟩).state.w.emitted = 404 ∧
    (prometheusMiddleware (fun _ => 0) http.serverResponse setsStatusTwice
      (productRequest "GET" (-1))
      ⟨noMetrics, http.response.fresh, ()⟩).state.metrics.httpRequestsTotal.series
      = [(["frontend", "GET", "/product/\x7bid\x7d", "500"], 1)] ∧
    (prometheusMiddleware (fun _ => 0) http.serverResponse writesThenSetsStatus
      (productRequest "GET" (-1)) ⟨noMetrics, http.response.fresh, ()⟩).returns = true ∧
    (prometheusMiddleware (fun _ => 0) http.serverResponse writesThenSetsStatus
      (productRequest "GET" (-1)) ⟨noMetrics, http.response.fresh, ()⟩).state.w.emitted = 200 ∧
    (prometheusMiddleware (fun _ => 0) http.serverResponse writesThenSetsStatus
      (productRequest "GET" (-1))
      ⟨noMetrics, http.response.fresh, ()⟩).state.metrics.httpRequestsTotal.series
      = [(["frontend", "GET", "/product/\x7bid\x7d", "500"], 1)] ∧
    strconv.Itoa 404 ≠ "500" ∧ strconv.Itoa 200 ≠ "500" := by
  decide

/-- C8: the wrapper is transparent.  A WriteHeader or Write on the wrapper reaches the underlying
sink with the same argument, and Write returns the very pair the sink returned; over every handler
body the calls made and the values returned, the environment left and the final state of the sink
are those of the same body run on the sink itself, whatever status and size the wrapper has
recorded; and a sink that records the calls reaching it ends with exactly the calls made on the
wrapper, in order, with the results the wrapper returned. -/
theorem wrapper_is_transparent {σ ε : Type} (W : http.ResponseWriter σ) (p : http.Script ε)
    (s : σ) (statusCode size code : Int) (b : List UInt8) (log : List http.Interaction) :
    (responseWriter.WriteHeader W code ⟨s, statusCode, size⟩).ResponseWriter
      = W.WriteHeader code s ∧
    (responseWriter.Write W b ⟨s, statusCode, size⟩).1 = (W.Write b s).1 ∧
    (responseWriter.Write W b ⟨s, statusCode, size⟩).2.ResponseWriter = (W.Write b s).2 ∧
    (p.run (wrapper W) ⟨s, statusCode, size⟩).1 = (p.run W s).1 ∧
    (p.run (wrapper W) ⟨s, statusCode, size⟩).2.1 = (p.run W s).2.1 ∧
    (p.run (wrapper W) ⟨s, statusCode, size⟩).2.2.ResponseWriter = (p.run W s).2.2 ∧
    (p.run (wrapper (http.recording W)) ⟨(s, log), statusCode, size⟩).2.2.ResponseWriter.2
      = log ++ (p.run (wrapper (http.recording W)) ⟨(s, log), statusCode, size⟩).1 := by
  refine ⟨rfl, rfl, rfl, ?_, ?_, ?_, ?_⟩
  · rw [run_wrapper]
  · rw [run_wrapper]
  · rw [run_wrapper]
  · rw [run_wrapper]
    simp [run_recording]

/-- C9, as the claim states it, fails: a request that declares the content length 0 leaves
http_request_size_bytes without any observation. -/
theorem declared_length_zero_is_not_observed :
    (productRequest "POST" 0).ContentLength = 0 ∧
    (prometheusMiddleware (fun _ => 0) http.serverResponse silent (productRequest "POST" 0)
      ⟨noMetrics, http.response.fresh, ()⟩).returns = true ∧
    (prometheusMiddleware (fun _ => 0) http.serverResponse silent (productRequest "POST" 0)
      ⟨noMetrics, http.response.fresh, ()⟩).state.metrics.httpRequestSize.series = [] ∧
    (prometheusMiddleware (fun _ => 0) http.serverResponse silent (productRequest "POST" 0)
      ⟨noMetrics, http.response.fresh, ()⟩).state.metrics.httpRequestSize.observations
        ["frontend", "POST", "/product/\x7bid\x7d"] = [] := by
  decide

/-- C9, amended: for a request whose handler label is valid UTF-8, a content length L greater
than 0 adds exactly one observation, of value L, to http_request_size_bytes under
(frontend, method, handler label), and the next handler is invoked on a registry that already
holds it, the other three vectors still untouched; a content length that is 0 or unknown (-1) adds
no observation to that histogram. -/
theorem request_size_observed_when_positive {σ ε : Type} (now : ε → Int)
    (W : http.ResponseWriter σ) (next : Handler ε) (r : http.Request) (st : State σ ε)
    (h : String) (hh : handlerLabel r = GoString.utf8 h) :
    (prometheusMiddleware now W next r st).returns = true ∧
    (prometheusMiddleware now W next r st).state.metrics.httpRequestSize
      = (if r.ContentLength > 0 then
          (st.metrics.httpRequestSize.Observe ["frontend", r.Method, h]
            (Sample.float64 r.ContentLength))
        else st.metrics.httpRequestSize) ∧
    (prometheusMiddleware now W next r st).state.metrics.httpRequestSize.count
      = st.metrics.httpRequestSize.count + (if r.ContentLength > 0 then 1 else 0) ∧
    (∀ lvs : Labels,
      (prometheusMiddleware now W next r st).state.metrics.httpRequestSize.observations lvs
        = if r.ContentLength > 0 ∧ lvs = ["frontend", r.Method, h]
          then st.metrics.httpRequestSize.observations lvs ++ [Sample.float64 r.ContentLength]
          else st.metrics.httpRequestSize.observations lvs) ∧
    (prometheusMiddleware now W next r st).state.env
      = ((next r
            { st.metrics with httpRequestSize :=
                if r.ContentLength > 0 then
                  (st.metrics.httpRequestSize.Observe ["frontend", r.Method, h]
                    (Sample.float64 r.ContentLength))
                else st.metrics.httpRequestSize }
            st.env).run W st.w).2.1 ∧
    (prometheusMiddleware now W next r st).state.w
      = ((next r
            { st.metrics with httpRequestSize :=
                if r.ContentLength > 0 then
                  (st.metrics.httpRequestSize.Observe ["frontend", r.Method, h]
                    (Sample.float64 r.ContentLength))
                else st.metrics.httpRequestSize }
            st.env).run W st.w).2.2 := by
  obtain ⟨hmet, hw, henv, hret⟩ := middleware_valid_state now W next r st h hh
  have hrec := recordRequestSize_valid r st.metrics h hh
  have h1 : (prometheusMiddleware now W next r st).state.metrics.httpRequestSize
      = (if r.ContentLength > 0 then
          (st.metrics.httpRequestSize.Observe ["frontend", r.Method, h]
            (Sample.float64 r.ContentLength))
        else st.metrics.httpRequestSize) := by
    rw [hmet]
  refine ⟨hret, h1, ?_, ?_, ?_, ?_⟩
  · rw [h1]
    split
    · exact HistogramVec.count_Observe _ _ _
    · rfl
  · intro lvs
    rw [h1]
    by_cases hpos : r.ContentLength > 0
    · simp only [hpos, if_true, true_and]
      exact HistogramVec.observations_Observe _ _ _ _
    · simp [hpos]
  · rw [henv, serveDirect, invokedOn, hrec, Option.getD_some]
  · rw [hw, serveDirect, invokedOn, hrec, Option.getD_some]

/-- C9, amended, at a concrete request: a POST that declares 7 bytes has the size 7 observed. -/
theorem request_size_observed_when_positive_witness :
    handlerLabel (productRequest "POST" 7) = GoString.utf8 "/product/\x7bid\x7d" ∧
    (prometheusMiddleware (fun _ => 0) http.serverResponse silent (productRequest "POST" 7)
      ⟨noMetrics, http.response.fresh, ()⟩).state.metrics.httpRequestSize
      = (HistogramVec.mk []).Observe ["frontend", "POST", "/product/\x7bid\x7d"]
          (Sample.float64 7) :=
  ⟨rfl,
    (request_size_observed_when_positive (fun _ => 0) http.serverResponse silent
      (productRequest "POST" 7) ⟨noMetrics, http.response.fresh, ()⟩
      "/product/\x7bid\x7d" rfl).2.1⟩

end frontend
